import Mathlib

/-!
# Verification of the clipboard manager's persistence model

Shallow embedding of `clipboard_manager_ui_v2.py`: the three-table database
(users, sessions, clipboard_entries) is a record of row lists, and each
method that touches the database becomes a Lean function on that record.
External library primitives (the SHA-256 digest, the PNG codec, QImage
truthiness) are parameters of the corresponding functions.
-/

namespace ClipboardManager

/-- A row of the `users` table (see `initDatabase`): id, username (UNIQUE),
password_hash, created_at.  Timestamps are abstract ticks (`Nat`). -/
structure UserRow where
  id : Nat
  username : String
  password_hash : String
  created_at : Nat
deriving DecidableEq, Repr

/-- A row of the `sessions` table: id, user_id, name, created_at,
is_deleted, is_default; the table carries UNIQUE(user_id, name). -/
structure SessionRow where
  id : Nat
  user_id : Nat
  name : String
  created_at : Nat
  is_deleted : Bool
  is_default : Bool
deriving DecidableEq, Repr

/-- A row of the `clipboard_entries` table: id, session_id, content,
content_type, width, height, timestamp, is_deleted. -/
structure EntryRow where
  id : Nat
  session_id : Nat
  content : String
  content_type : String
  width : Option Nat
  height : Option Nat
  timestamp : Nat
  is_deleted : Bool
deriving DecidableEq, Repr

/-- The database: the three tables plus the AUTOINCREMENT counters. -/
structure Db where
  users : List UserRow
  sessions : List SessionRow
  entries : List EntryRow
  nextUserId : Nat
  nextSessionId : Nat
  nextEntryId : Nat
deriving DecidableEq, Repr

/-- `hash_password`: `hashlib.sha256(password.encode()).hexdigest()`.
The SHA-256 hex digest is an external `hashlib` primitive, modelled by the
parameter `sha256hex`.  The digest is applied to the password alone:
no salt enters the computation. -/
def hash_password (sha256hex : String → String) (password : String) : String :=
  sha256hex password

/-- `validateUser`: `SELECT id FROM users WHERE username = ? AND
password_hash = ?`, `fetchone` returning the first matching id. -/
def validateUser (username pwHash : String) (db : Db) : Option Nat :=
  (db.users.find? (fun u => u.username == username && u.password_hash == pwHash)).map
    (fun u => u.id)

/-- `registerUser`: `INSERT INTO users (username, password_hash) VALUES (?, ?)`.
`username` is UNIQUE, so a duplicate raises `IntegrityError`, which the
method catches, returning `False` with the table unchanged. -/
def registerUser (sha256hex : String → String) (username password : String)
    (now : Nat) (db : Db) : Db × Bool :=
  if db.users.any (fun u => u.username == username) then (db, false)
  else
    ({ db with
        users := db.users ++
          [{ id := db.nextUserId, username := username,
             password_hash := hash_password sha256hex password, created_at := now }],
        nextUserId := db.nextUserId + 1 }, true)

/-- `createNewSession`: `INSERT INTO sessions (user_id, name) VALUES (?, ?)`;
`is_deleted` and `is_default` take their schema DEFAULT 0.  A duplicate
(user_id, name) violates UNIQUE(user_id, name): the `IntegrityError` is
caught and the table is left unchanged. -/
def createNewSession (userId : Nat) (name : String) (now : Nat) (db : Db) : Db :=
  if db.sessions.any (fun r => r.user_id == userId && r.name == name) then db
  else
    { db with
        sessions := db.sessions ++
          [{ id := db.nextSessionId, user_id := userId, name := name,
             created_at := now, is_deleted := false, is_default := false }],
        nextSessionId := db.nextSessionId + 1 }

/-- Two session rows that collide on the UNIQUE(user_id, name) key. -/
def sameUserName (a b : SessionRow) : Bool :=
  a.user_id == b.user_id && a.name == b.name

/-- The UNIQUE(user_id, name) constraint of the `sessions` table: no later
row collides with an earlier one. -/
def noDupUserNames : List SessionRow → Bool
  | [] => true
  | r :: rs => rs.all (fun r2 => !sameUserName r r2) && noDupUserNames rs

/-- `renameSession`: `UPDATE sessions SET name = ? WHERE name = ? AND
user_id = ?`.  SQLite aborts the statement and rolls it back when the
update would violate UNIQUE(user_id, name); on tables satisfying the
constraint (the only reachable ones) that is equivalent to the whole-table
uniqueness check used here. -/
def renameSession (userId : Nat) (oldName newName : String) (db : Db) : Db :=
  let updated := db.sessions.map (fun r =>
    if r.name == oldName && r.user_id == userId then { r with name := newName } else r)
  if noDupUserNames updated then { db with sessions := updated } else db

/-- `deleteSession`: soft-deletes the session via `UPDATE sessions SET
is_deleted = 1 WHERE name = ? AND user_id = ?` and then its entries via
`UPDATE clipboard_entries SET is_deleted = 1 WHERE session_id IN (SELECT id
FROM sessions WHERE name = ? AND user_id = ?)`.  The subquery runs after the
first update, but that update changes no column the subquery reads, so the
selected ids below are computed from the pre-state. -/
def deleteSession (userId : Nat) (name : String) (db : Db) : Db :=
  let targetIds := (db.sessions.filter (fun r => r.name == name && r.user_id == userId)).map
    (fun r => r.id)
  { db with
      sessions := db.sessions.map (fun r =>
        if r.name == name && r.user_id == userId then { r with is_deleted := true } else r),
      entries := db.entries.map (fun e =>
        if targetIds.contains e.session_id then { e with is_deleted := true } else e) }

/-- `deleteClipboardEntry`: `UPDATE clipboard_entries SET is_deleted = 1
WHERE content = ? AND session_id = ? AND timestamp = (SELECT timestamp FROM
clipboard_entries WHERE content = ? AND session_id = ? AND is_deleted = 0
ORDER BY timestamp DESC LIMIT 1)`.  An empty subquery yields NULL, which
matches no row. -/
def deleteClipboardEntry (sessionId : Nat) (content : String) (db : Db) : Db :=
  let live := db.entries.filter (fun e =>
    e.content == content && e.session_id == sessionId && e.is_deleted == false)
  match (live.map (fun e => e.timestamp)).max? with
  | none => db
  | some ts =>
    { db with
        entries := db.entries.map (fun e =>
          if e.content == content && e.session_id == sessionId && e.timestamp == ts
          then { e with is_deleted := true } else e) }

/-- `clearClipboardHistory`: `UPDATE clipboard_entries SET is_deleted = 1
WHERE session_id = ? AND is_deleted = 0` (the method returns early when no
session is selected; this models the guarded call with a concrete id). -/
def clearClipboardHistory (sessionId : Nat) (db : Db) : Db :=
  { db with
      entries := db.entries.map (fun e =>
        if e.session_id == sessionId && e.is_deleted == false
        then { e with is_deleted := true } else e) }

/-- `saveClipboardContent`: returns without writing when
`current_session_id is None`, otherwise `INSERT INTO clipboard_entries
(session_id, content, content_type, width, height, timestamp) VALUES
(?, ?, ?, ?, ?, ?)`. -/
def saveClipboardContent (currentSessionId : Option Nat) (content contentType : String)
    (width height : Option Nat) (now : Nat) (db : Db) : Db :=
  match currentSessionId with
  | none => db
  | some sid =>
    { db with
        entries := db.entries ++
          [{ id := db.nextEntryId, session_id := sid, content := content,
             content_type := contentType, width := width, height := height,
             timestamp := now, is_deleted := false }],
        nextEntryId := db.nextEntryId + 1 }

/-- `setDefaultSession`: `UPDATE sessions SET is_default = 0 WHERE
user_id = ?` followed by `UPDATE sessions SET is_default = 1 WHERE id = ?
AND user_id = ?`. -/
def setDefaultSession (userId sessionId : Nat) (db : Db) : Db :=
  let cleared := db.sessions.map (fun r =>
    if r.user_id == userId then { r with is_default := false } else r)
  { db with
      sessions := cleared.map (fun r =>
        if r.id == sessionId && r.user_id == userId then { r with is_default := true } else r) }

/-- `modifyClipboardEntry`: `UPDATE clipboard_entries SET content = ?,
timestamp = ? WHERE content = ? AND session_id = ? AND timestamp = ?`. -/
def modifyClipboardEntry (sessionId : Nat) (oldContent newContent : String)
    (ts now : Nat) (db : Db) : Db :=
  { db with
      entries := db.entries.map (fun e =>
        if e.content == oldContent && e.session_id == sessionId && e.timestamp == ts
        then { e with content := newContent, timestamp := now } else e) }

/-- Insertion step of the insertion sort used to model `ORDER BY`. -/
def insertSorted {α : Type} (le : α → α → Bool) (a : α) : List α → List α
  | [] => [a]
  | b :: bs => if le a b then a :: b :: bs else b :: insertSorted le a bs

/-- Insertion sort modelling `ORDER BY` (claims below depend only on the
multiset of results, never on tie order). -/
def sortRows {α : Type} (le : α → α → Bool) : List α → List α
  | [] => []
  | a :: rest => insertSorted le a (sortRows le rest)

/-- `loadAvailableSessions`: `SELECT id, name, is_default FROM sessions
WHERE is_deleted = 0 ORDER BY name`.  The method has `self.current_user_id`
in scope (the `currentUserId` argument) but the query never mentions it:
the list is not scoped to the logged-in user. -/
def loadAvailableSessionsUI (currentUserId : Nat) (db : Db) : List (Nat × String × Bool) :=
  (sortRows (fun a b => decide (a.name ≤ b.name))
      (db.sessions.filter (fun r => r.is_deleted == false))).map
    (fun r => (r.id, r.name, r.is_default))

/-- `loadClipboardHistory`: `SELECT content, content_type, width, height,
timestamp FROM clipboard_entries WHERE session_id = ? AND is_deleted = 0
ORDER BY timestamp DESC` (the method returns early when no session is
selected; this models the call with a concrete session id). -/
def loadClipboardHistory (sessionId : Nat) (db : Db) :
    List (String × String × Option Nat × Option Nat × Nat) :=
  (sortRows (fun a b => decide (b.timestamp ≤ a.timestamp))
      (db.entries.filter (fun e => e.session_id == sessionId && e.is_deleted == false))).map
    (fun e => (e.content, e.content_type, e.width, e.height, e.timestamp))

/-! ## The clipboard poller (`ClipboardThread.run`) -/

/-- What one poll of `clipboard.mimeData()` observes.  `image` and `text`
are only consulted under the corresponding `has*` flag, mirroring
`mime_data.hasImage()` / `clipboard.image()` / `mime_data.text()`. -/
structure ClipData (Img : Type) where
  hasImage : Bool
  image : Img
  hasText : Bool
  text : String

/-- One iteration of the `while self.running` loop of `ClipboardThread.run`,
acting on `self.previous_content` (initially `None`, hence `Option`).
Python's truthiness test `if image` on the QImage is the external parameter
`truthy`; `if text` on a `str` is non-emptiness.  Returns (whether
`clipboard_changed` was emitted, the new `previous_content`). -/
def pollStep {Img : Type} [DecidableEq Img] (truthy : Img → Bool)
    (clip : ClipData Img) (prev : Option (Img ⊕ String)) :
    Bool × Option (Img ⊕ String) :=
  if clip.hasImage then
    if truthy clip.image = true ∧ ¬ prev = some (Sum.inl clip.image) then
      (true, some (Sum.inl clip.image))
    else (false, prev)
  else if clip.hasText then
    if ¬ clip.text = "" ∧ ¬ prev = some (Sum.inr clip.text) then
      (true, some (Sum.inr clip.text))
    else (false, prev)
  else (false, prev)

/-- The clipboard content of a poll as the spec words it: the image when one
is present (image preferred over text), else the text, else nothing. -/
def pollCurrentContent {Img : Type} (clip : ClipData Img) : Option (Img ⊕ String) :=
  if clip.hasImage then some (Sum.inl clip.image)
  else if clip.hasText then some (Sum.inr clip.text)
  else none

/-- Non-emptiness of a content value as the spec words it: truthiness for an
image, non-empty string for text. -/
def contentNonEmpty {Img : Type} (truthy : Img → Bool) : Img ⊕ String → Bool
  | Sum.inl i => truthy i
  | Sum.inr t => !(t == "")

/-- The poll iteration as the spec words it (this definition follows the
spec sentence, to be compared with `pollStep`, which follows the source):
emit exactly when the current content is non-empty and differs from the
previously seen content, and then remember it. -/
def pollStepSpec {Img : Type} [DecidableEq Img] (truthy : Img → Bool)
    (clip : ClipData Img) (prev : Option (Img ⊕ String)) :
    Bool × Option (Img ⊕ String) :=
  match pollCurrentContent clip with
  | none => (false, prev)
  | some c =>
    if contentNonEmpty truthy c = true ∧ ¬ some c = prev then (true, some c)
    else (false, prev)

/-! ## Which SQL statements run while `db_lock` is held

Each `*_dbAccesses` list has one entry per `cursor.execute` the method
performs, in execution order; the entry is `true` exactly when the
statement runs inside a `with self.db_lock` block. -/

/-- `validateUser` executes its SELECT without touching `db_lock`. -/
def validateUser_dbAccesses : List Bool := [false]

/-- `registerUser` executes its INSERT without touching `db_lock`. -/
def registerUser_dbAccesses : List Bool := [false]

/-- `createNewSession` executes its INSERT without touching `db_lock`. -/
def createNewSession_dbAccesses : List Bool := [false]

/-- `renameSession` executes its UPDATE without touching `db_lock`. -/
def renameSession_dbAccesses : List Bool := [false]

/-- `deleteSession` executes its two UPDATEs without touching `db_lock`. -/
def deleteSession_dbAccesses : List Bool := [false, false]

/-- `deleteClipboardEntry` executes its UPDATE without touching `db_lock`. -/
def deleteClipboardEntry_dbAccesses : List Bool := [false]

/-- `clearClipboardHistory` executes its UPDATE without touching `db_lock`. -/
def clearClipboardHistory_dbAccesses : List Bool := [false]

/-- `setDefaultSession` executes its two UPDATEs without touching `db_lock`. -/
def setDefaultSession_dbAccesses : List Bool := [false, false]

/-- `modifyClipboardEntry` executes its UPDATE without touching `db_lock`. -/
def modifyClipboardEntry_dbAccesses : List Bool := [false]

/-- `loadClipboardHistory` acquires no lock itself; its single SELECT runs
under `db_lock` only when its caller already holds it. -/
def loadClipboardHistory_dbAccesses (lockAlreadyHeld : Bool) : List Bool :=
  [lockAlreadyHeld]

/-- `saveClipboardContent` runs its INSERT inside `with self.db_lock` and,
still inside that block, calls `loadClipboardHistory`. -/
def saveClipboardContent_dbAccesses : List Bool :=
  [true] ++ loadClipboardHistory_dbAccesses true

/-- `loadAvailableSessions` runs its initial SELECT inside
`with self.db_lock`; the per-session `SELECT is_default` queries of its
default-session scan (`loopQueries` of them) run after the block exits. -/
def loadAvailableSessions_dbAccesses (loopQueries : Nat) : List Bool :=
  true :: List.replicate loopQueries false

/-- A database path is serialized when each of its statements runs with the
lock held. -/
def dbAccessesLocked (accesses : List Bool) : Bool :=
  accesses.all (fun b => b)

/-! ## Base64 (QByteArray.toBase64 on store, base64.b64decode on copy) -/

/-- Standard base64 alphabet, index 0..63 to character. -/
def b64alphabetChar (i : Nat) : Char :=
  if i < 26 then Char.ofNat (65 + i)
  else if i < 52 then Char.ofNat (97 + (i - 26))
  else if i < 62 then Char.ofNat (48 + (i - 52))
  else if i = 62 then Char.ofNat 43
  else Char.ofNat 47

/-- Standard base64 alphabet, character back to index. -/
def b64charIndex (c : Char) : Option Nat :=
  if 65 ≤ c.toNat ∧ c.toNat ≤ 90 then some (c.toNat - 65)
  else if 97 ≤ c.toNat ∧ c.toNat ≤ 122 then some (26 + (c.toNat - 97))
  else if 48 ≤ c.toNat ∧ c.toNat ≤ 57 then some (52 + (c.toNat - 48))
  else if c.toNat = 43 then some 62
  else if c.toNat = 47 then some 63
  else none

/-- Base64 encoding of a byte list (bytes as `Nat` below 256), with `=`
padding, as produced by `QByteArray.toBase64`. -/
def b64encodeBytes : List Nat → List Char
  | [] => []
  | [b1] =>
    [b64alphabetChar (b1 / 4), b64alphabetChar (b1 % 4 * 16), Char.ofNat 61, Char.ofNat 61]
  | [b1, b2] =>
    [b64alphabetChar (b1 / 4), b64alphabetChar (b1 % 4 * 16 + b2 / 16),
     b64alphabetChar (b2 % 16 * 4), Char.ofNat 61]
  | b1 :: b2 :: b3 :: rest =>
    b64alphabetChar (b1 / 4) :: b64alphabetChar (b1 % 4 * 16 + b2 / 16) ::
    b64alphabetChar (b2 % 16 * 4 + b3 / 64) :: b64alphabetChar (b3 % 64) ::
    b64encodeBytes rest

/-- Base64 decoding, as performed by `base64.b64decode`: four characters at
a time, `=` padding only at the very end, failure on anything else. -/
def b64decodeChars : List Char → Option (List Nat)
  | [] => some []
  | c1 :: c2 :: c3 :: c4 :: rest =>
    match b64charIndex c1, b64charIndex c2 with
    | some i1, some i2 =>
      if c3.toNat = 61 then
        if c4.toNat = 61 ∧ rest = [] then some [i1 * 4 + i2 / 16] else none
      else
        match b64charIndex c3 with
        | some i3 =>
          if c4.toNat = 61 then
            if rest = [] then some [i1 * 4 + i2 / 16, i2 % 16 * 16 + i3 / 4] else none
          else
            match b64charIndex c4 with
            | some i4 =>
              (b64decodeChars rest).map (fun bs =>
                (i1 * 4 + i2 / 16) :: (i2 % 16 * 16 + i3 / 4) :: (i3 % 4 * 64 + i4) :: bs)
            | none => none
        | none => none
    | _, _ => none
  | _ => none

/-- Base64 text of a byte list, as stored in the `content` column. -/
def b64encode (bs : List Nat) : String :=
  String.mk (b64encodeBytes bs)

/-- Base64 decoding of stored text. -/
def b64decode (s : String) : Option (List Nat) :=
  b64decodeChars s.data

/-- `onClipboardChanged`, image branch: `image.save(buffer, PNG)` (the
external PNG encoder is the parameter `pngEncode`), then
`byte_array.toBase64().data().decode()`, then `saveClipboardContent(...,
content_type = image)`. -/
def onClipboardChangedImage {Img : Type} (pngEncode : Img → List Nat) (img : Img)
    (width height : Option Nat) (currentSessionId : Option Nat) (now : Nat) (db : Db) : Db :=
  saveClipboardContent currentSessionId (b64encode (pngEncode img)) "image"
    width height now db

/-- `copySelectedToClipboard`, image branch with `str` content:
`base64.b64decode(content)` then `QImage.loadFromData` (the external PNG
decoder is the parameter `pngDecode`), the result placed on the clipboard. -/
def copyImageFromContent {Img : Type} (pngDecode : List Nat → Img) (content : String) :
    Option Img :=
  (b64decode content).map pngDecode

/-! ## Derived notions used by the invariants -/

/-- Session-row fields other than `is_deleted` coincide. -/
def sessionSameModDel (a b : SessionRow) : Bool :=
  b.id == a.id && b.user_id == a.user_id && b.name == a.name &&
  b.created_at == a.created_at && b.is_default == a.is_default

/-- Entry-row fields other than `is_deleted` coincide. -/
def entrySameModDel (a b : EntryRow) : Bool :=
  b.id == a.id && b.session_id == a.session_id && b.content == a.content &&
  b.content_type == a.content_type && b.width == a.width && b.height == a.height &&
  b.timestamp == a.timestamp

/-- Soft-delete frame: all fields preserved except that `is_deleted` may
only be raised to `true`. -/
def sessionFrameB (a b : SessionRow) : Bool :=
  sessionSameModDel a b && (b.is_deleted == a.is_deleted || b.is_deleted == true)

/-- Soft-delete frame for entry rows. -/
def entryFrameB (a b : EntryRow) : Bool :=
  entrySameModDel a b && (b.is_deleted == a.is_deleted || b.is_deleted == true)

/-- Pointwise row correspondence between two table states. -/
def framesB {α : Type} (f : α → α → Bool) (l l2 : List α) : Bool :=
  (l.length == l2.length) && (l.zip l2).all (fun p => f p.1 p.2)

/-- Number of sessions of user `u` that carry the default flag. -/
def defaultCount (db : Db) (u : Nat) : Nat :=
  db.sessions.countP (fun r => r.user_id == u && r.is_default == true)

/-- The session primary keys are pairwise distinct (AUTOINCREMENT ids). -/
def sessionIdsNodup (db : Db) : Prop :=
  (db.sessions.map (fun r => r.id)).Nodup

/-! ## Concrete instances used by counterexamples and witnesses -/

/-- The empty database, as freshly created by `initDatabase`. -/
def emptyDb : Db :=
  { users := [], sessions := [], entries := [],
    nextUserId := 1, nextSessionId := 1, nextEntryId := 1 }

/-- A stand-in digest instance used to exhibit the dataflow of
`hash_password`: the stored credential is the digest of the password alone. -/
def demoDigest (s : String) : String := s ++ "-digest"

/-- Two registered users where only the second owns a (live) session. -/
def dbTwoUsers : Db :=
  { users := [{ id := 1, username := "alice", password_hash := "ha", created_at := 0 },
              { id := 2, username := "bob", password_hash := "hb", created_at := 0 }],
    sessions := [{ id := 10, user_id := 2, name := "bobs", created_at := 0,
                   is_deleted := false, is_default := false }],
    entries := [],
    nextUserId := 3, nextSessionId := 11, nextEntryId := 1 }

/-- A concrete stand-in PNG encoder over `Nat` images, for instantiating
the round-trip theorem. -/
def demoPngEncode (n : Nat) : List Nat := [n % 256, 137, 80]

/-- The matching stand-in PNG decoder. -/
def demoPngDecode (bs : List Nat) : Nat := bs.headD 0

/-! ## Helper lemmas -/

theorem mem_insertSorted {α : Type} (le : α → α → Bool) (a x : α) (l : List α) :
    x ∈ insertSorted le a l ↔ x = a ∨ x ∈ l := by
  induction l with
  | nil => simp [insertSorted]
  | cons b bs ih =>
    simp only [insertSorted]
    split
    · simp [or_comm, or_assoc, or_left_comm]
    · simp [ih, or_comm, or_assoc, or_left_comm]

theorem mem_sortRows {α : Type} (le : α → α → Bool) (x : α) (l : List α) :
    x ∈ sortRows le l ↔ x ∈ l := by
  induction l with
  | nil => simp [sortRows]
  | cons a rest ih => simp [sortRows, mem_insertSorted, ih]

theorem zip_map_all {α : Type} (l : List α) (g : α → α) (q : α × α → Bool) :
    ((l.zip (l.map g)).all q) = l.all (fun a => q (a, g a)) := by
  induction l with
  | nil => rfl
  | cons a t ih => simp [List.zip_cons_cons, ih]

theorem countP_map_eq {α : Type} (l : List α) (f : α → α) (p q : α → Bool)
    (h : ∀ a, p (f a) = q a) : (l.map f).countP p = l.countP q := by
  induction l with
  | nil => rfl
  | cons a t ih => simp [List.countP_cons, h, ih]

theorem countP_le_one_of_nodup_key {α : Type} (l : List α) (key : α → Nat) (k : Nat)
    (q : α → Bool) (hn : (l.map key).Nodup) :
    l.countP (fun r => key r == k && q r) ≤ 1 := by
  induction l with
  | nil => simp
  | cons a t ih =>
    simp only [List.map_cons, List.nodup_cons] at hn
    obtain ⟨ha, ht⟩ := hn
    by_cases hp : (key a == k && q a) = true
    · have hak : key a = k := by
        have := (Bool.and_eq_true _ _).mp hp
        exact eq_of_beq this.1
      have hz : t.countP (fun r => key r == k && q r) = 0 := by
        rw [List.countP_eq_zero]
        intro r hr hcon
        have hrk : key r = k := by
          have := (Bool.and_eq_true _ _).mp hcon
          exact eq_of_beq this.1
        exact ha (by rw [hak, ← hrk]; exact List.mem_map_of_mem key hr)
      simp [List.countP_cons, hp, hz]
    · simp [List.countP_cons, hp]
      exact ih ht

theorem find?_isSome_eq_any {α : Type} (p : α → Bool) (l : List α) :
    (l.find? p).isSome = l.any p := by
  induction l with
  | nil => rfl
  | cons a t ih => by_cases h : p a = true <;> simp [List.find?_cons, h, ih]

theorem framesB_map {α : Type} (f : α → α → Bool) (g : α → α) (l : List α)
    (h : ∀ a, f a (g a) = true) : framesB f l (l.map g) = true := by
  simp only [framesB, List.length_map, zip_map_all, Bool.and_eq_true, List.all_eq_true]
  exact ⟨beq_self_eq_true _, fun a _ => h a⟩

theorem framesB_self {α : Type} (f : α → α → Bool) (l : List α)
    (h : ∀ a, f a a = true) : framesB f l l = true := by
  have := framesB_map f id l (by simpa using h)
  simpa using this

theorem sessionFrameB_setDel (r : SessionRow) :
    sessionFrameB r { r with is_deleted := true } = true := by
  simp [sessionFrameB, sessionSameModDel]

theorem sessionFrameB_refl (r : SessionRow) : sessionFrameB r r = true := by
  simp [sessionFrameB, sessionSameModDel]

theorem entryFrameB_setDel (e : EntryRow) :
    entryFrameB e { e with is_deleted := true } = true := by
  simp [entryFrameB, entrySameModDel]

theorem entryFrameB_refl (e : EntryRow) : entryFrameB e e = true := by
  simp [entryFrameB, entrySameModDel]

/-- Membership in the session list query result. -/
theorem mem_loadAvailableSessionsUI (cuid : Nat) (db : Db) (x : Nat × String × Bool) :
    x ∈ loadAvailableSessionsUI cuid db ↔
      ∃ r ∈ db.sessions, r.is_deleted = false ∧ (r.id, r.name, r.is_default) = x := by
  simp [loadAvailableSessionsUI, List.mem_map, mem_sortRows, List.mem_filter, and_assoc]

/-- Membership in the clipboard history query result. -/
theorem mem_loadClipboardHistory (sid : Nat) (db : Db)
    (t : String × String × Option Nat × Option Nat × Nat) :
    t ∈ loadClipboardHistory sid db ↔
      ∃ e ∈ db.entries, e.session_id = sid ∧ e.is_deleted = false ∧
        (e.content, e.content_type, e.width, e.height, e.timestamp) = t := by
  simp [loadClipboardHistory, List.mem_map, mem_sortRows, List.mem_filter, and_assoc]

/-- `noDupUserNames` is pairwise absence of UNIQUE(user_id, name) collisions. -/
theorem noDupUserNames_eq_true_iff (l : List SessionRow) :
    noDupUserNames l = true ↔ l.Pairwise (fun a b => sameUserName a b = false) := by
  induction l with
  | nil => simp [noDupUserNames]
  | cons a t ih =>
    simp [noDupUserNames, List.all_eq_true, ih, List.pairwise_cons, Bool.not_eq_true']

theorem noDupUserNames_append_single (l : List SessionRow) (x : SessionRow)
    (h : noDupUserNames l = true) (hx : ∀ r ∈ l, sameUserName r x = false) :
    noDupUserNames (l ++ [x]) = true := by
  rw [noDupUserNames_eq_true_iff] at h ⊢
  rw [List.pairwise_append]
  refine ⟨h, by simp [List.pairwise_cons], ?_⟩
  intro r hr y hy
  rw [List.mem_singleton] at hy
  subst hy
  exact hx r hr

theorem b64charIndex_alphabet : ∀ i, i < 64 → b64charIndex (b64alphabetChar i) = some i := by
  decide

theorem b64alphabetChar_toNat_ne61 : ∀ i, i < 64 → ¬ (b64alphabetChar i).toNat = 61 := by
  decide

theorem char61_toNat : (Char.ofNat 61).toNat = 61 := rfl

/-- Decoding inverts encoding on genuine byte lists. -/
theorem b64decodeChars_encodeBytes :
    ∀ (bs : List Nat), (∀ b ∈ bs, b < 256) → b64decodeChars (b64encodeBytes bs) = some bs
  | [], _ => by simp [b64encodeBytes, b64decodeChars]
  | [b1], h => by
    have hb1 : b1 < 256 := h b1 (by simp)
    have h1 : b1 / 4 < 64 := by omega
    have h2 : b1 % 4 * 16 < 64 := by omega
    simp only [b64encodeBytes, b64decodeChars, b64charIndex_alphabet _ h1,
      b64charIndex_alphabet _ h2, char61_toNat]
    simp
    omega
  | [b1, b2], h => by
    have hb1 : b1 < 256 := h b1 (by simp)
    have hb2 : b2 < 256 := h b2 (by simp)
    have h1 : b1 / 4 < 64 := by omega
    have h2 : b1 % 4 * 16 + b2 / 16 < 64 := by omega
    have h3 : b2 % 16 * 4 < 64 := by omega
    simp only [b64encodeBytes, b64decodeChars, b64charIndex_alphabet _ h1,
      b64charIndex_alphabet _ h2, b64charIndex_alphabet _ h3, char61_toNat]
    simp [b64alphabetChar_toNat_ne61 _ h3]
    omega
  | b1 :: b2 :: b3 :: r1 :: rest, h => by
    have hb1 : b1 < 256 := h b1 (by simp)
    have hb2 : b2 < 256 := h b2 (by simp)
    have hb3 : b3 < 256 := h b3 (by simp)
    have h1 : b1 / 4 < 64 := by omega
    have h2 : b1 % 4 * 16 + b2 / 16 < 64 := by omega
    have h3 : b2 % 16 * 4 + b3 / 64 < 64 := by omega
    have h4 : b3 % 64 < 64 := by omega
    have ih := b64decodeChars_encodeBytes (r1 :: rest) (fun b hb => h b (by simp at hb ⊢; tauto))
    simp only [b64encodeBytes, b64decodeChars, b64charIndex_alphabet _ h1,
      b64charIndex_alphabet _ h2, b64charIndex_alphabet _ h3, b64charIndex_alphabet _ h4, ih]
    simp [b64alphabetChar_toNat_ne61 _ h3, b64alphabetChar_toNat_ne61 _ h4]
    omega
  | [b1, b2, b3], h => by
    have hb1 : b1 < 256 := h b1 (by simp)
    have hb2 : b2 < 256 := h b2 (by simp)
    have hb3 : b3 < 256 := h b3 (by simp)
    have h1 : b1 / 4 < 64 := by omega
    have h2 : b1 % 4 * 16 + b2 / 16 < 64 := by omega
    have h3 : b2 % 16 * 4 + b3 / 64 < 64 := by omega
    have h4 : b3 % 64 < 64 := by omega
    have ih : b64decodeChars (b64encodeBytes []) = some [] := by
      simp [b64encodeBytes, b64decodeChars]
    simp only [b64encodeBytes, b64decodeChars, b64charIndex_alphabet _ h1,
      b64charIndex_alphabet _ h2, b64charIndex_alphabet _ h3, b64charIndex_alphabet _ h4, ih]
    simp [b64alphabetChar_toNat_ne61 _ h3, b64alphabetChar_toNat_ne61 _ h4]
    omega

/-- String-level inverse: `b64decode` undoes `b64encode` on byte lists. -/
theorem b64decode_encode (bs : List Nat) (h : ∀ b ∈ bs, b < 256) :
    b64decode (b64encode bs) = some bs :=
  b64decodeChars_encodeBytes bs h

/-! ## Claim theorems -/

/-- C6: each poll iteration of `ClipboardThread.run` emits the change
signal if and only if the current clipboard content (image preferred over
text) is non-empty and differs from the previously seen content, updating
the previously seen content exactly on emission (`pollStep` coincides with
the spec-worded `pollStepSpec`); consequently polling the same clipboard
state twice in a row signals at most once: the second poll never emits. -/
theorem C6_poller_dedup {Img : Type} [DecidableEq Img] (truthy : Img → Bool)
    (clip : ClipData Img) (prev : Option (Img ⊕ String)) :
    pollStep truthy clip prev = pollStepSpec truthy clip prev
  ∧ (pollStep truthy clip (pollStep truthy clip prev).2).1 = false := by
  constructor
  · cases hI : clip.hasImage with
    | true =>
      simp only [pollStep, pollStepSpec, pollCurrentContent, contentNonEmpty, hI, if_true]
      apply if_congr (and_congr Iff.rfl (not_congr eq_comm)) rfl rfl
    | false =>
      cases hT : clip.hasText with
      | true =>
        simp only [pollStep, pollStepSpec, pollCurrentContent, contentNonEmpty, hI, hT,
          Bool.false_eq_true, if_false, if_true]
        apply if_congr ?_ rfl rfl
        apply and_congr ?_ (not_congr eq_comm)
        constructor
        · intro h1
          simp [h1]
        · intro h1 h2
          rw [h2] at h1
          simp at h1
      | false =>
        simp [pollStep, pollStepSpec, pollCurrentContent, hI, hT]
  · cases hI : clip.hasImage with
    | true =>
      by_cases hc : truthy clip.image = true ∧ ¬ prev = some (Sum.inl clip.image)
      · simp [pollStep, hI, hc]
      · simp only [pollStep, hI, if_true]
        rw [if_neg hc, if_neg hc]
    | false =>
      cases hT : clip.hasText with
      | true =>
        by_cases hc : ¬ clip.text = "" ∧ ¬ prev = some (Sum.inr clip.text)
        · simp [pollStep, hI, hT, hc]
        · simp only [pollStep, hI, hT, Bool.false_eq_true, if_false, if_true]
          rw [if_neg hc, if_neg hc]
      | false =>
        simp [pollStep, hI, hT]

/-- C9: the users table is immutable outside registration: every modelled
operation other than `registerUser` leaves `users` unchanged, and
`registerUser` only appends (the pre-existing rows stay a prefix, and at
most one row is added). -/
theorem C9_users_immutable (db : Db) (H : String → String)
    (un pw name oldName newName c c2 ct : String) (uid sid now ts : Nat)
    (w h : Option Nat) (osid : Option Nat) :
    (createNewSession uid name now db).users = db.users
  ∧ (renameSession uid oldName newName db).users = db.users
  ∧ (deleteSession uid name db).users = db.users
  ∧ (deleteClipboardEntry sid c db).users = db.users
  ∧ (clearClipboardHistory sid db).users = db.users
  ∧ (setDefaultSession uid sid db).users = db.users
  ∧ (modifyClipboardEntry sid c c2 ts now db).users = db.users
  ∧ (saveClipboardContent osid c ct w h now db).users = db.users
  ∧ (registerUser H un pw now db).1.users.take db.users.length = db.users
  ∧ db.users.length ≤ (registerUser H un pw now db).1.users.length
  ∧ (registerUser H un pw now db).1.users.length ≤ db.users.length + 1 := by
  refine ⟨?_, ?_, rfl, ?_, rfl, rfl, rfl, ?_, ?_, ?_, ?_⟩
  · unfold createNewSession; split <;> rfl
  · simp only [renameSession]
    split <;> rfl
  · simp only [deleteClipboardEntry]
    split <;> rfl
  · unfold saveClipboardContent; split <;> rfl
  · unfold registerUser; split
    · simp [List.take_length]
    · simp [List.take_left]
  · unfold registerUser; split <;> simp
  · unfold registerUser; split <;> simp

/-- C10 counterexample: the claim that every database path runs under
`db_lock` is false — these paths each execute at least one SQL statement
with the lock not held (for `deleteSession` and the others, all of them). -/
theorem C10_counterexample :
    dbAccessesLocked deleteSession_dbAccesses = false
  ∧ dbAccessesLocked deleteClipboardEntry_dbAccesses = false
  ∧ dbAccessesLocked clearClipboardHistory_dbAccesses = false
  ∧ dbAccessesLocked setDefaultSession_dbAccesses = false
  ∧ dbAccessesLocked modifyClipboardEntry_dbAccesses = false
  ∧ dbAccessesLocked registerUser_dbAccesses = false
  ∧ dbAccessesLocked validateUser_dbAccesses = false
  ∧ dbAccessesLocked renameSession_dbAccesses = false
  ∧ dbAccessesLocked createNewSession_dbAccesses = false
  ∧ dbAccessesLocked (loadClipboardHistory_dbAccesses false) = false :=
  ⟨rfl, rfl, rfl, rfl, rfl, rfl, rfl, rfl, rfl, rfl⟩

/-- C10 amended: only `saveClipboardContent` (including the
`loadClipboardHistory` reload it performs inside its `with self.db_lock`
block) and the initial session query of `loadAvailableSessions` execute
under `db_lock`; every other database statement — the interactive
delete/clear/set-default/modify/rename/create paths, registration, login
validation, a standalone history load, and the default-session scan inside
`loadAvailableSessions` — runs without the mutex. -/
theorem C10_lock_usage (k : Nat) :
    dbAccessesLocked saveClipboardContent_dbAccesses = true
  ∧ (loadAvailableSessions_dbAccesses k).head? = some true
  ∧ ((loadAvailableSessions_dbAccesses k).tail.all (fun b => !b) = true)
  ∧ dbAccessesLocked (loadClipboardHistory_dbAccesses true) = true
  ∧ ((validateUser_dbAccesses ++ registerUser_dbAccesses ++ createNewSession_dbAccesses ++
      renameSession_dbAccesses ++ deleteSession_dbAccesses ++ deleteClipboardEntry_dbAccesses ++
      clearClipboardHistory_dbAccesses ++ setDefaultSession_dbAccesses ++
      modifyClipboardEntry_dbAccesses ++ loadClipboardHistory_dbAccesses false).all
        (fun b => !b) = true) := by
  refine ⟨rfl, rfl, ?_, rfl, rfl⟩
  simp [loadAvailableSessions_dbAccesses, List.all_eq_true, List.mem_replicate]

/-- C4 counterexample: the stored credential is not salted — registering
with the digest instance `demoDigest` stores exactly the digest of the
password alone (`demoDigest "secret"`), with no salt contribution. -/
theorem C4_counterexample :
    ((registerUser demoDigest "alice" "secret" 0 emptyDb).1.users.map
        (fun u => u.password_hash)) = [demoDigest "secret"]
  ∧ demoDigest "secret" = "secret-digest" :=
  ⟨rfl, rfl⟩

/-- C4 amended: `hash_password` is the digest of the password alone (no
salt); `registerUser` stores exactly that unsalted digest for the new user;
and `validateUser` — invoked at login with `hash_password(password)` —
accepts exactly when some user row matches the username and the stored
credential equals the supplied digest. -/
theorem C4_unsalted_hash (H : String → String) (un pw ph : String) (now : Nat) (db : Db) :
    hash_password H pw = H pw
  ∧ (validateUser un ph db).isSome
      = db.users.any (fun u => u.username == un && u.password_hash == ph)
  ∧ (validateUser un (hash_password H pw) db).isSome
      = db.users.any (fun u => u.username == un && u.password_hash == H pw)
  ∧ (registerUser H un pw now db).1.users.map (fun u => u.password_hash)
      = db.users.map (fun u => u.password_hash) ++
          (if db.users.any (fun u => u.username == un) then [] else [H pw]) := by
  refine ⟨rfl, ?_, ?_, ?_⟩
  · unfold validateUser
    rw [← find?_isSome_eq_any]
    cases hf : db.users.find? (fun u => u.username == un && u.password_hash == ph) <;>
      simp [hf]
  · unfold validateUser hash_password
    rw [← find?_isSome_eq_any]
    cases hf : db.users.find? (fun u => u.username == un && u.password_hash == H pw) <;>
      simp [hf]
  · by_cases hdup : db.users.any (fun u => u.username == un) = true <;>
      simp [registerUser, hdup, hash_password]

/-- C5 counterexample: with user 1 (alice) logged in, the session list
still shows session 10, which belongs to user 2 (bob) — every session row
of `dbTwoUsers` is bob's, yet the listing under alice is non-empty. -/
theorem C5_counterexample :
    loadAvailableSessionsUI 1 dbTwoUsers = [(10, "bobs", false)]
  ∧ dbTwoUsers.sessions.all (fun r => r.user_id == 2) = true :=
  ⟨rfl, rfl⟩

/-- C5 amended: every session row records exactly one owner, but
`loadAvailableSessions` is not scoped to the logged-in user: its result is
identical for any two logged-in users, and it lists precisely the
non-deleted sessions of **all** users (every live row appears; everything
listed stems from a live row). -/
theorem C5_sessions_not_user_scoped (u1 u2 : Nat) (db : Db) :
    loadAvailableSessionsUI u1 db = loadAvailableSessionsUI u2 db
  ∧ (db.sessions.all (fun r =>
       r.is_deleted == true ||
         (loadAvailableSessionsUI u1 db).any
           (fun x => decide (x = (r.id, r.name, r.is_default)))) = true)
  ∧ ((loadAvailableSessionsUI u1 db).all (fun x =>
       db.sessions.any (fun r =>
         r.is_deleted == false && decide ((r.id, r.name, r.is_default) = x))) = true) := by
  refine ⟨rfl, ?_, ?_⟩
  · rw [List.all_eq_true]
    intro r hr
    by_cases hd : r.is_deleted = true
    · simp [hd]
    · have hdf : r.is_deleted = false := by revert hd; cases r.is_deleted <;> simp
      rw [Bool.or_eq_true]
      right
      rw [List.any_eq_true]
      refine ⟨(r.id, r.name, r.is_default), ?_, by simp⟩
      rw [mem_loadAvailableSessionsUI]
      exact ⟨r, hr, hdf, rfl⟩
  · rw [List.all_eq_true]
    intro x hx
    rw [mem_loadAvailableSessionsUI] at hx
    obtain ⟨r, hr, hdf, hproj⟩ := hx
    rw [List.any_eq_true]
    exact ⟨r, hr, by simp [hdf, hproj]⟩

/-- C1: soft-deleted rows are excluded from every read and retained
physically: everything `loadAvailableSessions` lists stems from a session
row with `is_deleted = 0`; everything `loadClipboardHistory` returns stems
from an entry row of the session with `is_deleted = 0`; and the soft-delete
operations (`deleteSession`, `deleteClipboardEntry`,
`clearClipboardHistory`) keep every row in place — same row count, all
fields preserved except `is_deleted`, which can only be raised. -/
theorem C1_soft_delete_reads_and_retention (db : Db) (cuid sid uid : Nat) (name c : String) :
    ((loadAvailableSessionsUI cuid db).all (fun x =>
        db.sessions.any (fun r =>
          r.is_deleted == false && decide ((r.id, r.name, r.is_default) = x))) = true)
  ∧ ((loadClipboardHistory sid db).all (fun t =>
        db.entries.any (fun e =>
          e.is_deleted == false && e.session_id == sid &&
            decide ((e.content, e.content_type, e.width, e.height, e.timestamp) = t))) = true)
  ∧ framesB sessionFrameB db.sessions (deleteSession uid name db).sessions = true
  ∧ framesB entryFrameB db.entries (deleteSession uid name db).entries = true
  ∧ framesB entryFrameB db.entries (deleteClipboardEntry sid c db).entries = true
  ∧ (deleteClipboardEntry sid c db).sessions = db.sessions
  ∧ framesB entryFrameB db.entries (clearClipboardHistory sid db).entries = true
  ∧ (clearClipboardHistory sid db).sessions = db.sessions := by
  have hds : (deleteSession uid name db).sessions
      = db.sessions.map (fun r =>
          if r.name == name && r.user_id == uid then { r with is_deleted := true } else r) := rfl
  have hde : (deleteSession uid name db).entries
      = db.entries.map (fun e =>
          if ((db.sessions.filter (fun r => r.name == name && r.user_id == uid)).map
              (fun r => r.id)).contains e.session_id
          then { e with is_deleted := true } else e) := rfl
  refine ⟨?_, ?_, ?_, ?_, ?_, ?_, ?_, rfl⟩
  · rw [List.all_eq_true]
    intro x hx
    rw [mem_loadAvailableSessionsUI] at hx
    obtain ⟨r, hr, hdf, hproj⟩ := hx
    rw [List.any_eq_true]
    exact ⟨r, hr, by simp [hdf, hproj]⟩
  · rw [List.all_eq_true]
    intro t ht
    rw [mem_loadClipboardHistory] at ht
    obtain ⟨e, he, hsid, hdf, hproj⟩ := ht
    rw [List.any_eq_true]
    exact ⟨e, he, by simp [hdf, hsid, hproj]⟩
  · rw [hds]
    apply framesB_map
    intro a
    by_cases hc2 : (a.name == name && a.user_id == uid) = true
    · rw [if_pos hc2]; exact sessionFrameB_setDel a
    · rw [if_neg hc2]; exact sessionFrameB_refl a
  · rw [hde]
    apply framesB_map
    intro a
    by_cases hc2 : (((db.sessions.filter (fun r => r.name == name && r.user_id == uid)).map
        (fun r => r.id)).contains a.session_id) = true
    · rw [if_pos hc2]; exact entryFrameB_setDel a
    · rw [if_neg hc2]; exact entryFrameB_refl a
  · cases hm : ((db.entries.filter (fun e =>
        e.content == c && e.session_id == sid && e.is_deleted == false)).map
          (fun e => e.timestamp)).max? with
    | none =>
      have hid : deleteClipboardEntry sid c db = db := by
        simp only [deleteClipboardEntry]
        rw [hm]
      rw [hid]
      exact framesB_self _ _ entryFrameB_refl
    | some ts2 =>
      have hent : (deleteClipboardEntry sid c db).entries
          = db.entries.map (fun e =>
              if e.content == c && e.session_id == sid && e.timestamp == ts2
              then { e with is_deleted := true } else e) := by
        simp only [deleteClipboardEntry]
        rw [hm]
      rw [hent]
      apply framesB_map
      intro a
      by_cases hc2 : (a.content == c && a.session_id == sid && a.timestamp == ts2) = true
      · rw [if_pos hc2]; exact entryFrameB_setDel a
      · rw [if_neg hc2]; exact entryFrameB_refl a
  · simp only [deleteClipboardEntry]
    split <;> rfl
  · have hce : (clearClipboardHistory sid db).entries
        = db.entries.map (fun e =>
            if e.session_id == sid && e.is_deleted == false
            then { e with is_deleted := true } else e) := rfl
    rw [hce]
    apply framesB_map
    intro a
    by_cases hc2 : (a.session_id == sid && a.is_deleted == false) = true
    · rw [if_pos hc2]; exact entryFrameB_setDel a
    · rw [if_neg hc2]; exact entryFrameB_refl a

/-- C7: `deleteSession` cascades the soft delete: row counts are unchanged,
a session row gets `is_deleted = 1` exactly when its name and owner match
the deleted (name, current user) pair — so same-named sessions of other
users keep their flag — and an entry row gets `is_deleted = 1` exactly when
its `session_id` is among the ids of the current user's sessions with that
name, all other fields and rows (and the users table) untouched. -/
theorem C7_delete_session_cascade (db : Db) (uid : Nat) (name : String) :
    (deleteSession uid name db).sessions.length = db.sessions.length
  ∧ ((db.sessions.zip (deleteSession uid name db).sessions).all (fun p =>
      sessionSameModDel p.1 p.2 &&
        (if p.1.name == name && p.1.user_id == uid then p.2.is_deleted == true
         else p.2.is_deleted == p.1.is_deleted)) = true)
  ∧ (deleteSession uid name db).entries.length = db.entries.length
  ∧ ((db.entries.zip (deleteSession uid name db).entries).all (fun p =>
      entrySameModDel p.1 p.2 &&
        (if ((db.sessions.filter (fun r => r.name == name && r.user_id == uid)).map
              (fun r => r.id)).contains p.1.session_id
         then p.2.is_deleted == true
         else p.2.is_deleted == p.1.is_deleted)) = true)
  ∧ (deleteSession uid name db).users = db.users := by
  have hds : (deleteSession uid name db).sessions
      = db.sessions.map (fun r =>
          if r.name == name && r.user_id == uid then { r with is_deleted := true } else r) := rfl
  have hde : (deleteSession uid name db).entries
      = db.entries.map (fun e =>
          if ((db.sessions.filter (fun r => r.name == name && r.user_id == uid)).map
              (fun r => r.id)).contains e.session_id
          then { e with is_deleted := true } else e) := rfl
  refine ⟨?_, ?_, ?_, ?_, rfl⟩
  · rw [hds, List.length_map]
  · rw [hds, zip_map_all, List.all_eq_true]
    intro a _
    by_cases hc : (a.name == name && a.user_id == uid) = true
    · simp [hc, sessionSameModDel]
    · simp [hc, sessionSameModDel]
  · rw [hde, List.length_map]
  · rw [hde, zip_map_all, List.all_eq_true]
    intro a _
    dsimp only
    by_cases hc : (((db.sessions.filter (fun r => r.name == name && r.user_id == uid)).map
        (fun r => r.id)).contains a.session_id) = true
    · rw [if_pos hc, if_pos hc]
      simp [entrySameModDel]
    · rw [if_neg hc, if_neg hc]
      simp [entrySameModDel]

theorem defaultCount_createNewSession (db : Db) (uid : Nat) (name : String) (now u : Nat) :
    defaultCount (createNewSession uid name now db) u = defaultCount db u := by
  unfold createNewSession
  split
  · rfl
  · simp [defaultCount, List.countP_append, List.countP_cons]

theorem defaultCount_renameSession (db : Db) (uid : Nat) (oldName newName : String) (u : Nat) :
    defaultCount (renameSession uid oldName newName db) u = defaultCount db u := by
  simp only [renameSession]
  split
  · simp only [defaultCount]
    exact countP_map_eq _ _ _ _ (fun a => by
      by_cases hcond : (a.name == oldName && a.user_id == uid) = true
      · rw [if_pos hcond]
      · rw [if_neg hcond])
  · rfl

theorem defaultCount_deleteSession (db : Db) (uid : Nat) (name : String) (u : Nat) :
    defaultCount (deleteSession uid name db) u = defaultCount db u := by
  have hds : (deleteSession uid name db).sessions
      = db.sessions.map (fun r =>
          if r.name == name && r.user_id == uid then { r with is_deleted := true } else r) := rfl
  simp only [defaultCount, hds]
  exact countP_map_eq _ _ _ _ (fun a => by
    by_cases hcond : (a.name == name && a.user_id == uid) = true
    · rw [if_pos hcond]
    · rw [if_neg hcond])

theorem defaultCount_setDefaultSession (db : Db) (uid sid u : Nat)
    (h1 : defaultCount db u ≤ 1) (h2 : sessionIdsNodup db) :
    defaultCount (setDefaultSession uid sid db) u ≤ 1 := by
  have hs : (setDefaultSession uid sid db).sessions
      = (db.sessions.map (fun r =>
          if r.user_id == uid then { r with is_default := false } else r)).map
            (fun r => if r.id == sid && r.user_id == uid
              then { r with is_default := true } else r) := rfl
  unfold defaultCount at h1 ⊢
  rw [hs, List.map_map]
  by_cases hu : u = uid
  · subst hu
    rw [countP_map_eq _ _ _ (fun r => r.id == sid && r.user_id == u) ?_]
    · exact countP_le_one_of_nodup_key db.sessions (fun r => r.id) sid _ h2
    · intro a
      obtain ⟨aid, auser, aname, acreated, adel, adef⟩ := a
      by_cases ha1 : (auser == u) = true
      · by_cases ha2 : (aid == sid) = true
        · simp [Function.comp, ha1, ha2]
        · simp [Function.comp, ha1, ha2]
      · simp [Function.comp, ha1]
  · rw [countP_map_eq _ _ _ (fun r => r.user_id == u && r.is_default == true) ?_]
    · exact h1
    · intro a
      obtain ⟨aid, auser, aname, acreated, adel, adef⟩ := a
      by_cases ha1 : (auser == uid) = true
      · have hne : (auser == u) = false := by
          rw [eq_of_beq ha1, beq_eq_false_iff_ne]
          exact fun hcon => hu hcon.symm
        by_cases ha2 : (aid == sid) = true <;> simp [Function.comp, ha1, ha2, hne]
      · simp [Function.comp, ha1]

/-- C2: at most one session per user carries the default flag, and every
session operation preserves this: `createNewSession` inserts with the flag
off, `renameSession` and `deleteSession` never touch the flag, and
`setDefaultSession` first clears `is_default` on all of the user's
sessions before setting it on the selected one (so with distinct session
ids it leaves at most one default, and never disturbs other users). -/
theorem C2_at_most_one_default (db : Db) (uid sid now u : Nat)
    (name oldName newName : String)
    (h1 : defaultCount db u ≤ 1) (h2 : sessionIdsNodup db) :
    defaultCount (createNewSession uid name now db) u ≤ 1
  ∧ defaultCount (renameSession uid oldName newName db) u ≤ 1
  ∧ defaultCount (deleteSession uid name db) u ≤ 1
  ∧ defaultCount (setDefaultSession uid sid db) u ≤ 1 := by
  refine ⟨?_, ?_, ?_, ?_⟩
  · rw [defaultCount_createNewSession]; exact h1
  · rw [defaultCount_renameSession]; exact h1
  · rw [defaultCount_deleteSession]; exact h1
  · exact defaultCount_setDefaultSession db uid sid u h1 h2

/-- C2 witness: the invariant hypotheses hold of the concrete state
`dbTwoUsers` and the theorem applies there. -/
theorem C2_at_most_one_default_witness :
    defaultCount dbTwoUsers 1 ≤ 1 ∧ sessionIdsNodup dbTwoUsers
  ∧ (defaultCount (createNewSession 1 "a" 0 dbTwoUsers) 1 ≤ 1
     ∧ defaultCount (renameSession 1 "bobs" "c" dbTwoUsers) 1 ≤ 1
     ∧ defaultCount (deleteSession 1 "bobs" dbTwoUsers) 1 ≤ 1
     ∧ defaultCount (setDefaultSession 1 10 dbTwoUsers) 1 ≤ 1) :=
  ⟨by decide, by unfold sessionIdsNodup; decide,
    C2_at_most_one_default dbTwoUsers 1 10 0 1 "a" "bobs" "c" (by decide)
      (by unfold sessionIdsNodup; decide)⟩

/-- C8: image payloads round-trip through base64 text storage: the stored
entry's content is exactly the base64 text of the image's PNG encoding
(content_type `image`), and `copySelectedToClipboard` on that stored text
base64-decodes it and PNG-decodes back to the original image — store then
copy is the identity on the image payload (given the external PNG codec is
lossless and produces bytes). -/
theorem C8_image_roundtrip {Img : Type} (pngEncode : Img → List Nat)
    (pngDecode : List Nat → Img) (img : Img) (w h : Option Nat)
    (sid : Nat) (now : Nat) (db : Db)
    (hpng : pngDecode (pngEncode img) = img)
    (hbytes : (pngEncode img).all (fun b => decide (b < 256)) = true) :
    (onClipboardChangedImage pngEncode img w h (some sid) now db).entries.map
        (fun e => (e.content, e.content_type))
      = db.entries.map (fun e => (e.content, e.content_type))
          ++ [(b64encode (pngEncode img), "image")]
  ∧ copyImageFromContent pngDecode (b64encode (pngEncode img)) = some img := by
  constructor
  · simp [onClipboardChangedImage, saveClipboardContent]
  · unfold copyImageFromContent
    rw [b64decode_encode]
    · simp [hpng]
    · intro b hb
      exact of_decide_eq_true (List.all_eq_true.mp hbytes b hb)

/-- C8 witness: the hypotheses hold of the stand-in codec
(`demoPngEncode`/`demoPngDecode`) at image `5`, and the theorem applies. -/
theorem C8_image_roundtrip_witness :
    demoPngDecode (demoPngEncode 5) = 5
  ∧ (demoPngEncode 5).all (fun b => decide (b < 256)) = true
  ∧ ((onClipboardChangedImage demoPngEncode 5 (some 2) (some 2) (some 1) 0 emptyDb).entries.map
        (fun e => (e.content, e.content_type))
      = emptyDb.entries.map (fun e => (e.content, e.content_type))
          ++ [(b64encode (demoPngEncode 5), "image")]
     ∧ copyImageFromContent demoPngDecode (b64encode (demoPngEncode 5)) = some 5) :=
  ⟨rfl, by decide,
    C8_image_roundtrip demoPngEncode demoPngDecode 5 (some 2) (some 2) 1 0 emptyDb rfl
      (by decide)⟩

theorem sessionRow_set_name_self (a : SessionRow) (n : String) (hn : a.name = n) :
    { a with name := n } = a := by
  cases a
  simp_all

/-- C3: session names are unique per user — `createNewSession` and
`renameSession` preserve the absence of duplicate (user_id, name) pairs,
and an attempt to create a session under an existing name, or to rename a
session onto an existing name, fails (the UNIQUE constraint fires) and
leaves the database unchanged. -/
theorem C3_unique_session_names (db : Db) (uid : Nat)
    (name oldName newName : String) (now : Nat)
    (h : noDupUserNames db.sessions = true) :
    noDupUserNames (createNewSession uid name now db).sessions = true
  ∧ noDupUserNames (renameSession uid oldName newName db).sessions = true
  ∧ (db.sessions.any (fun r => r.user_id == uid && r.name == name) = false
      ∨ createNewSession uid name now db = db)
  ∧ (db.sessions.any (fun r => r.user_id == uid && r.name == oldName) = false
      ∨ db.sessions.any (fun r => r.user_id == uid && r.name == newName) = false
      ∨ renameSession uid oldName newName db = db) := by
  refine ⟨?_, ?_, ?_, ?_⟩
  · by_cases hany : db.sessions.any (fun r => r.user_id == uid && r.name == name) = true
    · unfold createNewSession
      rw [if_pos hany]
      exact h
    · unfold createNewSession
      rw [if_neg hany]
      show noDupUserNames (db.sessions ++
        [{ id := db.nextSessionId, user_id := uid, name := name,
           created_at := now, is_deleted := false, is_default := false }]) = true
      apply noDupUserNames_append_single _ _ h
      intro r hr
      have hnot : ¬ (r.user_id == uid && r.name == name) = true := by
        intro hcon
        exact hany (List.any_eq_true.mpr ⟨r, hr, hcon⟩)
      cases hb : (r.user_id == uid && r.name == name) with
      | false => exact hb
      | true => exact absurd hb hnot
  · simp only [renameSession]
    split
    case isTrue hupd => exact hupd
    case isFalse _ => exact h
  · by_cases hany : db.sessions.any (fun r => r.user_id == uid && r.name == name) = true
    · right
      unfold createNewSession
      rw [if_pos hany]
    · exact Or.inl (Bool.eq_false_iff.mpr hany)
  · by_cases h1 : db.sessions.any (fun r => r.user_id == uid && r.name == oldName) = true
    case neg => exact Or.inl (Bool.eq_false_iff.mpr h1)
    by_cases h2t : db.sessions.any (fun r => r.user_id == uid && r.name == newName) = true
    case neg => exact Or.inr (Or.inl (Bool.eq_false_iff.mpr h2t))
    refine Or.inr (Or.inr ?_)
    by_cases hon : oldName = newName
    · subst hon
      have hmapid : db.sessions.map (fun r =>
          if r.name == oldName && r.user_id == uid then { r with name := oldName } else r)
          = db.sessions := by
        conv_rhs => rw [← List.map_id db.sessions]
        apply List.map_congr_left
        intro a _
        by_cases hc : (a.name == oldName && a.user_id == uid) = true
        · rw [if_pos hc]
          exact sessionRow_set_name_self a oldName
            (eq_of_beq ((Bool.and_eq_true _ _).mp hc).1)
        · rw [if_neg hc]
          rfl
      simp only [renameSession, hmapid]
      rw [if_pos h]
    · obtain ⟨r, hrmem, hrp⟩ := List.any_eq_true.mp h1
      obtain ⟨r2, hr2mem, hr2p⟩ := List.any_eq_true.mp h2t
      have hruid : r.user_id = uid := eq_of_beq ((Bool.and_eq_true _ _).mp hrp).1
      have hrname : r.name = oldName := eq_of_beq ((Bool.and_eq_true _ _).mp hrp).2
      have hr2uid : r2.user_id = uid := eq_of_beq ((Bool.and_eq_true _ _).mp hr2p).1
      have hr2name : r2.name = newName := eq_of_beq ((Bool.and_eq_true _ _).mp hr2p).2
      obtain ⟨i, hi, hieq⟩ := List.mem_iff_getElem.mp hrmem
      obtain ⟨j, hj, hjeq⟩ := List.mem_iff_getElem.mp hr2mem
      have hij : ¬ i = j := by
        intro hcon
        subst hcon
        rw [hieq] at hjeq
        subst hjeq
        rw [hrname] at hr2name
        exact hon hr2name
      have hcond1 : (r.name == oldName && r.user_id == uid) = true := by
        rw [hrname, hruid]
        simp
      have hcond2 : ¬ (r2.name == oldName && r2.user_id == uid) = true := by
        intro hcon
        have h5 : r2.name = oldName := eq_of_beq ((Bool.and_eq_true _ _).mp hcon).1
        rw [hr2name] at h5
        exact hon h5.symm
      have hgr : (if r2.name == oldName && r2.user_id == uid
          then { r2 with name := newName } else r2) = r2 := if_neg hcond2
      have hgr0 : (if r.name == oldName && r.user_id == uid
          then { r with name := newName } else r) = { r with name := newName } :=
        if_pos hcond1
      have hfail : noDupUserNames (db.sessions.map (fun r3 =>
          if r3.name == oldName && r3.user_id == uid
          then { r3 with name := newName } else r3)) = false := by
        cases hnd : noDupUserNames (db.sessions.map (fun r3 =>
            if r3.name == oldName && r3.user_id == uid
            then { r3 with name := newName } else r3)) with
        | false => rfl
        | true =>
          exfalso
          rw [noDupUserNames_eq_true_iff, List.pairwise_iff_getElem] at hnd
          have hilt : i < (db.sessions.map (fun r3 =>
              if r3.name == oldName && r3.user_id == uid
              then { r3 with name := newName } else r3)).length := by
            rw [List.length_map]; exact hi
          have hjlt : j < (db.sessions.map (fun r3 =>
              if r3.name == oldName && r3.user_id == uid
              then { r3 with name := newName } else r3)).length := by
            rw [List.length_map]; exact hj
          have hgi : (db.sessions.map (fun r3 =>
              if r3.name == oldName && r3.user_id == uid
              then { r3 with name := newName } else r3))[i] = { r with name := newName } := by
            rw [List.getElem_map, hieq]
            exact hgr0
          have hgj : (db.sessions.map (fun r3 =>
              if r3.name == oldName && r3.user_id == uid
              then { r3 with name := newName } else r3))[j] = r2 := by
            rw [List.getElem_map, hjeq]
            exact hgr
          have hsame : sameUserName { r with name := newName } r2 = true := by
            simp [sameUserName, hruid, hr2uid, hr2name]
          have hsame2 : sameUserName r2 { r with name := newName } = true := by
            simp [sameUserName, hruid, hr2uid, hr2name]
          rcases Nat.lt_or_ge i j with hlt | hge
          · have hcontra := hnd i j hilt hjlt hlt
            rw [hgi, hgj, hsame] at hcontra
            exact Bool.noConfusion hcontra
          · have hlt2 : j < i := by omega
            have hcontra := hnd j i hjlt hilt hlt2
            rw [hgj, hgi, hsame2] at hcontra
            exact Bool.noConfusion hcontra
      simp only [renameSession, hfail]
      simp

/-- C3 witness: the uniqueness hypothesis holds of `dbTwoUsers` and the
theorem applies there, with an attempted duplicate creation and rename. -/
theorem C3_unique_session_names_witness :
    noDupUserNames dbTwoUsers.sessions = true
  ∧ (noDupUserNames (createNewSession 2 "bobs" 0 dbTwoUsers).sessions = true
     ∧ noDupUserNames (renameSession 2 "bobs" "bobs2" dbTwoUsers).sessions = true
     ∧ (dbTwoUsers.sessions.any (fun r => r.user_id == 2 && r.name == "bobs") = false
         ∨ createNewSession 2 "bobs" 0 dbTwoUsers = dbTwoUsers)
     ∧ (dbTwoUsers.sessions.any (fun r => r.user_id == 2 && r.name == "bobs") = false
         ∨ dbTwoUsers.sessions.any (fun r => r.user_id == 2 && r.name == "bobs2") = false
         ∨ renameSession 2 "bobs" "bobs2" dbTwoUsers = dbTwoUsers)) :=
  ⟨by decide, C3_unique_session_names dbTwoUsers 2 "bobs" "bobs" "bobs2" 0 (by decide)⟩

end ClipboardManager
